import Mathlib

/-!
Shallow embedding of `src/funfuzz/autobisectjs/autobisectjs.py` (the
autobisectjs bisection controller, its two label-classification oracles,
the `bisectLabel` delegate-response interpreter and the `checkBlameParents`
merge-blame verifier), together with theorems settling the frozen claims
about that code.

Python strings are modelled as Lean `String`; Python `dict` (the `labels`
mapping, only ever read through `labels.get`/`labels[...]` and written
through `labels[k] = v`) is modelled as an association list where a fresh
binding is consed in front (lookup returns the most recent binding, which
matches `dict` update/lookup semantics; iteration order is never used by the
modelled code).  Python exceptions (asserts, `raise`, `KeyError`,
`IndexError`) are modelled with `Except String`.  External collaborators
that live outside this file's source (the `hg` subprocess outputs,
`hg_helpers.get_cset_hash_from_bisect_msg`, `hg_helpers.isAncestor`,
`hg_helpers.findCommonAncestor`, the oracle `testRev`) are parameters of the
embedded functions: the embedding is faithful to how the source consumes
their results.
-/

/-- Python `str.split(sep)` for a one-character separator, by structural
recursion on the character list (`"".split(s) = [""]`, trailing separator
yields a trailing empty piece, exactly as in Python). -/
def pySplitAux (sep : Char) : List Char → List Char → List String
  | [], acc => [String.mk acc.reverse]
  | c :: t, acc =>
    if c = sep then String.mk acc.reverse :: pySplitAux sep t []
    else pySplitAux sep t (c :: acc)

/-- Python `str.split(sep)` (one-character separator). -/
def pySplit (s : String) (sep : Char) : List String :=
  pySplitAux sep s.data []

/-- Contiguous-sublist test on character lists: `infixCheck sub s = true` iff
`sub` occurs contiguously in `s` (the empty list occurs in everything). -/
def infixCheck (sub : List Char) : List Char → Bool
  | [] => sub.isEmpty
  | c :: t => sub.isPrefixOf (c :: t) || infixCheck sub t

/-- Python `s.find(sub) != -1`, i.e. substring occurrence.  Note that in
Python `s.find("") = 0 ≠ -1`, and likewise here the empty string occurs in
every string. -/
def strContains (s sub : String) : Bool :=
  infixCheck sub.data s.data

/-- Association-list lookup modelling Python `dict.get` (first binding wins;
insertions cons in front, so the most recent insertion is found). -/
def dictGet {α : Type} : List (String × α) → String → Option α
  | [], _ => none
  | (k2, v) :: t, k => if k2 = k then some v else dictGet t k

/-- The options consumed by the internal oracle: `options.output` (the `-o`
output substring, defaulting to `""`) and `options.watchExitCode` (the `-w`
exit code, defaulting to `None`). -/
structure InternalOptions where
  output : String
  watchExitCode : Option Int

/-- The classifier closed over by `internalTestAndLabel` (source lines
293-328): a pure function of the combined stdout/stderr text and the exit
code of the tested shell, returning a `(verdict, reason)` pair. -/
def internalTestAndLabel (opts : InternalOptions) (stdoutStderr : String)
    (exitCode : Int) : String × String :=
  if strContains stdoutStderr opts.output ∧ opts.output ≠ "" then
    ("bad", "Specified-bad output")
  else if opts.watchExitCode = some exitCode then
    ("bad", "Specified-bad exit code " ++ toString exitCode)
  else if opts.watchExitCode = none ∧ 129 ≤ exitCode ∧ exitCode ≤ 159 then
    ("bad", "High exit code " ++ toString exitCode)
  else if exitCode < 0 then
    if opts.watchExitCode = some (128 - exitCode) then
      ("bad", "Specified-bad exit code " ++ toString exitCode ++ " (after converting to signal)")
    else if ¬ strContains stdoutStderr opts.output ∧ opts.output ≠ "" then
      ("good", "Bad output, but not the specified one")
    else if opts.watchExitCode.isSome ∧ opts.watchExitCode ≠ some (128 - exitCode) then
      ("good", "Negative exit code, but not the specified one")
    else
      ("bad", "Negative exit code " ++ toString exitCode)
  else if exitCode = 0 then
    ("good", "Exit code 0")
  else if (exitCode = 1 ∨ exitCode = 2) ∧ opts.output ≠ "" ∧
      (strContains stdoutStderr "usage: js [" ∨
       strContains stdoutStderr "Error: Short option followed by junk" ∨
       strContains stdoutStderr "Error: Invalid long option:" ∨
       strContains stdoutStderr "Error: Invalid short option:") then
    ("good", "Exit code 1 or 2 - js shell quits because it does not support a given CLI parameter")
  else if 3 ≤ exitCode ∧ exitCode ≤ 6 then
    ("good", "Acceptable exit code " ++ toString exitCode)
  else if opts.watchExitCode.isSome then
    ("good", "Unknown exit code " ++ toString exitCode ++ ", but not the specified one")
  else
    ("bad", "Unknown exit code " ++ toString exitCode)

/-- C2: with no output filter (`options.output = ""`) and no watch exit code
(`options.watchExitCode = None`), every negative exit code `e` is classified
by the internal oracle as `("bad", "Negative exit code " ++ toString e)`:
none of the earlier bad/good rules fire and the negative-exit-code fallback
resolves to `bad`. -/
theorem internal_negative_exit_fallback_bad (s : String) (e : Int) (he : e < 0) :
    internalTestAndLabel ⟨"", none⟩ s e = ("bad", "Negative exit code " ++ toString e) := by
  unfold internalTestAndLabel
  simp only []
  rw [if_neg (by simp), if_neg (by simp), if_neg (by omega), if_pos he,
    if_neg (by simp), if_neg (by simp), if_neg (by simp)]

/-- Witness for C2 at the concrete SIGSEGV-style input of the spec:
exit code `-11`, empty output filter, no watch exit code. -/
theorem internal_negative_exit_fallback_bad_witness :
    internalTestAndLabel ⟨"", none⟩ "Segmentation fault" (-11) =
      ("bad", "Negative exit code " ++ toString (-11 : Int)) :=
  internal_negative_exit_fallback_bad "Segmentation fault" (-11) (by decide)

/-- C3: with exit code 1 or 2, a non-empty output filter that does not occur
in the combined output, no watch exit code, and a recognized
unsupported-CLI-flag marker in the output, the internal oracle returns the
`good` flag-rejection label, not `bad`. -/
theorem internal_flag_rejection_good (opts : InternalOptions) (s : String) (e : Int)
    (he : e = 1 ∨ e = 2) (hout : opts.output ≠ "")
    (hnc : strContains s opts.output = false)
    (hw : opts.watchExitCode = none)
    (hm : strContains s "usage: js [" ∨
          strContains s "Error: Short option followed by junk" ∨
          strContains s "Error: Invalid long option:" ∨
          strContains s "Error: Invalid short option:") :
    internalTestAndLabel opts s e =
      ("good", "Exit code 1 or 2 - js shell quits because it does not support a given CLI parameter") := by
  unfold internalTestAndLabel
  rw [if_neg (by simp [hnc]), if_neg (by simp [hw]), if_neg (by omega),
    if_neg (by omega), if_neg (by omega), if_pos ⟨he, hout, hm⟩]

/-- Witness for C3 at the concrete scenario of the spec: exit code 1, output
containing `usage: js [`, output filter set to a non-empty string that does
not occur. -/
theorem internal_flag_rejection_good_witness :
    internalTestAndLabel ⟨"ssertion fail", none⟩ "usage: js [options]" 1 =
      ("good", "Exit code 1 or 2 - js shell quits because it does not support a given CLI parameter") :=
  internal_flag_rejection_good ⟨"ssertion fail", none⟩ "usage: js [options]" 1
    (Or.inl rfl) (by decide) (by decide) rfl (Or.inl (by decide))

/-- A minimal filesystem state: the set of existing scratch directories,
as a list. -/
structure FS where
  dirs : List String
deriving DecidableEq

/-- The part of `externalTestAndLabel`'s inner function after the optional
`init` call (source lines 346-352): run the `interesting` predicate (which
may raise, modelled by `Except`), map truthy to `("bad", "interesting")` and
falsy to `("good", "not interesting")`, then remove the temporary directory
if it still exists, and return.  Note the removal is only reached on the
non-raising path: the source has no try/finally. -/
def externalAfterInit (tempDirName : String)
    (interestingResult : Except String Bool) (fs1 : FS) :
    Except String (String × String) × FS :=
  match interestingResult with
  | .error e => (.error e, fs1)
  | .ok b =>
    let innerResult := if b then ("bad", "interesting") else ("good", "not interesting")
    let fs2 := if tempDirName ∈ fs1.dirs then ⟨fs1.dirs.filter (fun d => d ≠ tempDirName)⟩ else fs1
    (.ok innerResult, fs2)

/-- The labeling function returned by `externalTestAndLabel` (source lines
337-353).  `tempDirName` stands for the fresh name `tempfile.mkdtemp`
returns (creating the directory); `hasInit` is whether the interestingness
module has an `init` attribute; `initResult` and `interestingResult` are the
outcomes of the caller-supplied predicate calls, either of which may raise
(`Except.error`).  The pair returned is (label or propagated exception,
final filesystem state). -/
def externalInner (tempDirName : String) (hasInit : Bool)
    (initResult : Except String Unit) (interestingResult : Except String Bool)
    (fs : FS) : Except String (String × String) × FS :=
  let fs1 : FS := ⟨fs.dirs ++ [tempDirName]⟩
  if hasInit then
    match initResult with
    | .error e => (.error e, fs1)
    | .ok _ => externalAfterInit tempDirName interestingResult fs1
  else externalAfterInit tempDirName interestingResult fs1

/-- C5 counterexample: when the caller-supplied predicate raises, the
temporary directory created by the labeling function of
`externalTestAndLabel` is NOT removed: the function has no try/finally, so
the exception propagates before the removal step and the scratch directory
leaks.  Here the predicate raises and the final filesystem still holds the
scratch directory. -/
theorem external_temp_dir_leaks_on_exception :
    (externalInner "abExtTestAndLabel-deadbeef" false (.ok ()) (.error "predicate raised") ⟨[]⟩).1 =
      .error "predicate raised" ∧
    "abExtTestAndLabel-deadbeef" ∈
      (externalInner "abExtTestAndLabel-deadbeef" false (.ok ()) (.error "predicate raised") ⟨[]⟩).2.dirs := by
  exact ⟨rfl, by decide⟩

/-- C5 amended: the scratch directory is removed before return exactly on
the non-raising paths.  If `init` or `interesting` raises, the directory is
left behind (it leaks); on every normal return it is removed. -/
theorem external_temp_dir_removed_iff_no_exception (tempDirName : String)
    (hasInit : Bool) (initResult : Except String Unit)
    (interestingResult : Except String Bool) (fs : FS) :
    tempDirName ∈ (externalInner tempDirName hasInit initResult interestingResult fs).2.dirs ↔
      (externalInner tempDirName hasInit initResult interestingResult fs).1.isOk = false := by
  unfold externalInner externalAfterInit
  have hmem : tempDirName ∈ fs.dirs ++ [tempDirName] := by simp
  rcases hasInit with _ | _ <;> rcases initResult with e | u <;>
    rcases interestingResult with e2 | b <;>
    simp_all [Except.isOk, Except.toBool, List.mem_filter]

/-- The result 5-tuple of `bisectLabel` (source line 437-495):
`(blamedGoodOrBad, blamedRev, currRev, startRepo, endRepo)`. -/
structure BisectLabelResult where
  blamedGoodOrBad : Option String
  blamedRev : Option String
  currRev : Option String
  startRepo : String
  endRepo : String
deriving DecidableEq

/-- Prefix match of the regex
`Due to skipped revisions, the first (good|bad) revision could be any of:`
(Python `re.match` anchors at the start of the line only). -/
def matchAmbiguousSkips (line : String) : Bool :=
  "Due to skipped revisions, the first good revision could be any of:".data.isPrefixOf line.data ||
  "Due to skipped revisions, the first bad revision could be any of:".data.isPrefixOf line.data

/-- Prefix match of the regex `The first (good|bad) revision is:`, returning
the captured verdict group on success. -/
def matchFirstRevision (line : String) : Option String :=
  if "The first good revision is:".data.isPrefixOf line.data then some "good"
  else if "The first bad revision is:".data.isPrefixOf line.data then some "bad"
  else none

/-- The first line of a subprocess output, Python `output.split("\n")[0]`
(Python `split` always returns at least one piece, so index 0 never
raises). -/
def firstLine (s : String) : String :=
  (pySplit s '\n').headD ""

/-- `bisectLabel` (source lines 437-495): mark the delegate with
`hgLabel` for `currRev` and interpret the textual response.

- `getCset` stands for `hg_helpers.get_cset_hash_from_bisect_msg` (external
  to the source file): extraction of a revision identifier from a line.
- `delegateOutput` is the stdout of the `hg bisect -U --<label> <rev>`
  subprocess.
- The second component of the result collects, in order, the shell commands
  the function runs (the mark itself, and on the fatal-parse path the
  working-copy restore and the `.pyc` cleanup); the Python assert on
  `hgLabel` and the final `raise` are modelled with `Except.error`. -/
def bisectLabel (getCset : String → Option String) (testInitialRevs : Bool)
    (repoDir : String) (hgLabel : String) (currRev : String)
    (delegateOutput : String) (startRepo endRepo : String) :
    Except String BisectLabelResult × List String :=
  if ¬ (hgLabel = "good" ∨ hgLabel = "bad" ∨ hgLabel = "skip") then
    (.error "AssertionError: hgLabel", [])
  else
    let markCmd := "hg bisect -U --" ++ hgLabel ++ " " ++ currRev
    let outputLines := pySplit delegateOutput '\n'
    let line0 := firstLine delegateOutput
    if matchAmbiguousSkips line0 then
      (.ok ⟨none, none, none, startRepo, endRepo⟩, [markCmd])
    else
      match matchFirstRevision line0 with
      | some gb =>
        match outputLines.get? 1 with
        | none => (.error "IndexError", [markCmd])
        | some line1 => (.ok ⟨some gb, getCset line1, none, startRepo, endRepo⟩, [markCmd])
      | none =>
        if testInitialRevs then
          (.ok ⟨none, none, none, startRepo, endRepo⟩, [markCmd])
        else
          match getCset line0 with
          | none =>
            (.error "hg did not suggest a changeset to test!",
             [markCmd, "hg update -C default", "destroyPyc " ++ repoDir])
          | some newRev =>
            let se : String × String :=
              if hgLabel = "bad" then (startRepo, newRev)
              else if hgLabel = "good" then (newRev, endRepo)
              else (startRepo, endRepo)
            (.ok ⟨none, none, some newRev, se.1, se.2⟩, [markCmd])

/-- C4: when the delegate response to a mark is a `Testing changeset`
(next-revision) line — it matches neither the ambiguous nor the
first-revision-found shape, initial-endpoint mode is off, and a revision
identifier is extracted — `bisectLabel` returns that identifier as the next
candidate and updates the range by the frame rule: `skip` leaves both
endpoints exactly as passed in, `good` replaces only the start with the
newly suggested revision, and `bad` replaces only the end with it. -/
theorem bisectLabel_next_revision_frame (getCset : String → Option String)
    (repoDir hgLabel currRev delegateOutput startRepo endRepo newRev : String)
    (hl : hgLabel = "good" ∨ hgLabel = "bad" ∨ hgLabel = "skip")
    (hamb : matchAmbiguousSkips (firstLine delegateOutput) = false)
    (hfr : matchFirstRevision (firstLine delegateOutput) = none)
    (hnew : getCset (firstLine delegateOutput) = some newRev) :
    (hgLabel = "skip" →
      (bisectLabel getCset false repoDir hgLabel currRev delegateOutput startRepo endRepo).1 =
        .ok ⟨none, none, some newRev, startRepo, endRepo⟩) ∧
    (hgLabel = "good" →
      (bisectLabel getCset false repoDir hgLabel currRev delegateOutput startRepo endRepo).1 =
        .ok ⟨none, none, some newRev, newRev, endRepo⟩) ∧
    (hgLabel = "bad" →
      (bisectLabel getCset false repoDir hgLabel currRev delegateOutput startRepo endRepo).1 =
        .ok ⟨none, none, some newRev, startRepo, newRev⟩) := by
  refine ⟨fun h => ?_, fun h => ?_, fun h => ?_⟩ <;>
    subst h <;> simp [bisectLabel, hamb, hfr, hnew]

/-- Witness for C4 at a concrete delegate response
(`Testing changeset 52121:573c5fa45cc4 (440 changesets remaining, ~8 tests)`)
with label `good`: only the start endpoint moves to the suggested revision. -/
theorem bisectLabel_next_revision_frame_witness :
    (bisectLabel (fun _ => some "573c5fa45cc4") false "repo" "good" "currRev"
        "Testing changeset 52121:573c5fa45cc4 (440 changesets remaining, ~8 tests)"
        "aaaa1111" "bbbb2222").1 =
      .ok ⟨none, none, some "573c5fa45cc4", "573c5fa45cc4", "bbbb2222"⟩ :=
  (bisectLabel_next_revision_frame (fun _ => some "573c5fa45cc4") "repo" "good" "currRev"
    "Testing changeset 52121:573c5fa45cc4 (440 changesets remaining, ~8 tests)"
    "aaaa1111" "bbbb2222" "573c5fa45cc4"
    (Or.inl rfl) (by decide) (by decide) rfl).2.1 rfl

/-- C9: when the delegate response to a mark is neither the ambiguous shape
nor the first-revision-found shape, initial-endpoint mode is off, and no
revision identifier can be extracted from the first line, `bisectLabel` is
fatal: it runs the mark, then restores the working copy with
`hg update -C default` (and cleans compiled `.pyc` files), and raises
instead of returning a next candidate. -/
theorem bisectLabel_parse_failure_fatal (getCset : String → Option String)
    (repoDir hgLabel currRev delegateOutput startRepo endRepo : String)
    (hl : hgLabel = "good" ∨ hgLabel = "bad" ∨ hgLabel = "skip")
    (hamb : matchAmbiguousSkips (firstLine delegateOutput) = false)
    (hfr : matchFirstRevision (firstLine delegateOutput) = none)
    (hnone : getCset (firstLine delegateOutput) = none) :
    bisectLabel getCset false repoDir hgLabel currRev delegateOutput startRepo endRepo =
      (.error "hg did not suggest a changeset to test!",
       ["hg bisect -U --" ++ hgLabel ++ " " ++ currRev,
        "hg update -C default", "destroyPyc " ++ repoDir]) := by
  have hl' : (hgLabel = "good" ∨ hgLabel = "bad" ∨ hgLabel = "skip") := hl
  simp [bisectLabel, hl', hamb, hfr, hnone]

/-- Witness for C9 at a concrete unparseable delegate response. -/
theorem bisectLabel_parse_failure_fatal_witness :
    bisectLabel (fun _ => none) false "repo" "skip" "currRev"
        "Not all ancestors of this changeset have been checked." "s0" "e0" =
      (.error "hg did not suggest a changeset to test!",
       ["hg bisect -U --" ++ "skip" ++ " " ++ "currRev",
        "hg update -C default", "destroyPyc " ++ "repo"]) :=
  bisectLabel_parse_failure_fatal (fun _ => none) "repo" "skip" "currRev"
    "Not all ancestors of this changeset have been checked." "s0" "e0"
    (Or.inr (Or.inr rfl)) (by decide) (by decide) rfl

/-- Mutable state threaded through `checkBlameParents`' per-parent loop
(source lines 360-398): the labels mapping and the two flags. -/
structure BlameSt where
  labels : List (String × (String × String))
  bisectLied : Bool
  missedCommonAncestor : Bool
deriving DecidableEq

/-- The verdict check of the per-parent loop (source lines 390-398): a
`skip` parent sets neither flag, a parent whose verdict equals the blamed
verdict sets `bisectLied`, an opposite verdict passes the assert, and
anything else raises (the assert, or the `KeyError` of the good/bad
translation dict). -/
def checkParentVerdict (blamedGoodOrBad : String) (st1 : BlameSt) (p : String) :
    Except String BlameSt :=
  match dictGet st1.labels p with
  | none => .error "KeyError"
  | some lab =>
    if lab.1 = "skip" then .ok st1
    else if lab.1 = blamedGoodOrBad then .ok { st1 with bisectLied := true }
    else if (blamedGoodOrBad = "good" ∧ lab.1 = "bad") ∨
            (blamedGoodOrBad = "bad" ∧ lab.1 = "good") then .ok st1
    else .error "AssertionError"

/-- One iteration of `checkBlameParents`' per-parent loop (source lines
374-398): if the parent has no recorded label, flag `missedCommonAncestor`
when it is a descendant of neither endpoint (`isAncestor rd a b` stands for
the external `hg_helpers.isAncestor(repo_dir, a, b)`, true iff `a` is an
ancestor of `b` — the meaning documented by the source's own log message
`it is not a descendant of either ... or ...`), test it and record the
label; then run the verdict check. -/
def checkParentStep (repoDir startRepo endRepo blamedGoodOrBad : String)
    (isAncestor : String → String → String → Bool)
    (testRev : String → String × String)
    (st : BlameSt) (p : String) : Except String BlameSt :=
  match dictGet st.labels p with
  | some _ => checkParentVerdict blamedGoodOrBad st p
  | none =>
    checkParentVerdict blamedGoodOrBad
      { labels := (p, testRev p) :: st.labels
        bisectLied := st.bisectLied
        missedCommonAncestor :=
          if isAncestor repoDir startRepo p = false ∧ isAncestor repoDir endRepo p = false
          then true else st.missedCommonAncestor } p

/-- The whole per-parent loop, propagating any raised exception. -/
def checkParentsLoop (repoDir startRepo endRepo blamedGoodOrBad : String)
    (isAncestor : String → String → String → Bool)
    (testRev : String → String × String) :
    BlameSt → List String → Except String BlameSt
  | st, [] => .ok st
  | st, p :: ps =>
    match checkParentStep repoDir startRepo endRepo blamedGoodOrBad isAncestor testRev st p with
    | .error e => .error e
    | .ok st1 => checkParentsLoop repoDir startRepo endRepo blamedGoodOrBad isAncestor testRev st1 ps

/-- The explanation reported at the end of `checkBlameParents` (source lines
400-420). -/
inductive BlameOutcome
  | singleParent
  | liedMissedCommonAncestor (ca : String) (caLabel : String × String)
  | liedEndpointMislabeled
  | mergeIntroduced
deriving DecidableEq

/-- The observable outcome of a `checkBlameParents` call: the final labels
mapping, the two flags and the reported explanation. -/
structure BlameResult where
  labels : List (String × (String × String))
  bisectLied : Bool
  missedCommonAncestor : Bool
  outcome : BlameOutcome
deriving DecidableEq

/-- The tail of `checkBlameParents` (source lines 400-420): explain why
bisect blamed the merge.  In the contradicted-and-missed-common-ancestor
case the common ancestor of the first two parents is computed and tested
(note the source logs its label but does NOT record it in `labels`).
Python `parents[0]`/`parents[1]` raise `IndexError` when absent. -/
def blameFinish (repoDir : String)
    (findCommonAncestor : String → String → String → String)
    (testRev : String → String × String)
    (parents : List String) (st : BlameSt) : Except String BlameResult :=
  if st.bisectLied then
    if st.missedCommonAncestor then
      match parents.get? 0, parents.get? 1 with
      | some p0, some p1 =>
        let ca := findCommonAncestor repoDir p0 p1
        .ok ⟨st.labels, st.bisectLied, st.missedCommonAncestor,
             .liedMissedCommonAncestor ca (testRev ca)⟩
      | _, _ => .error "IndexError"
    else .ok ⟨st.labels, st.bisectLied, st.missedCommonAncestor, .liedEndpointMislabeled⟩
  else .ok ⟨st.labels, st.bisectLied, st.missedCommonAncestor, .mergeIntroduced⟩

/-- `checkBlameParents` (source lines 357-420).  `hgParentOutput` is the
stdout of the `hg parent --template={node|short},` query; as in the source,
the parent list is its comma-split with the trailing piece dropped.  With a
single parent the function returns immediately.  `blamedRev` is consumed
only by that query, which is abstracted by `hgParentOutput`. -/
def checkBlameParents (repoDir blamedRev blamedGoodOrBad : String)
    (labels : List (String × (String × String)))
    (testRev : String → String × String)
    (startRepo endRepo : String)
    (hgParentOutput : String)
    (isAncestor : String → String → String → Bool)
    (findCommonAncestor : String → String → String → String) :
    Except String BlameResult :=
  let parents := (pySplit hgParentOutput ',').dropLast
  if parents.length = 1 then
    .ok ⟨labels, false, false, .singleParent⟩
  else
    match checkParentsLoop repoDir startRepo endRepo blamedGoodOrBad isAncestor testRev
        ⟨labels, false, false⟩ parents with
    | .error e => .error e
    | .ok st => blameFinish repoDir findCommonAncestor testRev parents st

theorem dictGet_cons {α : Type} (k2 : String) (v : α) (t : List (String × α)) (k : String) :
    dictGet ((k2, v) :: t) k = if k2 = k then some v else dictGet t k := rfl

theorem checkParentVerdict_ok (bg : String) (st1 : BlameSt) (p : String) (st' : BlameSt)
    (h : checkParentVerdict bg st1 p = .ok st') :
    st'.labels = st1.labels ∧ st'.missedCommonAncestor = st1.missedCommonAncestor := by
  unfold checkParentVerdict at h
  cases hg : dictGet st1.labels p with
  | none => rw [hg] at h; cases h
  | some lab =>
    rw [hg] at h
    dsimp only at h
    split_ifs at h <;> cases h <;> exact ⟨rfl, rfl⟩

theorem checkParentStep_ok_spec (rd sr er bg : String)
    (anc : String → String → String → Bool) (tr : String → String × String)
    (st : BlameSt) (p : String) (st' : BlameSt)
    (h : checkParentStep rd sr er bg anc tr st p = .ok st') :
    ((dictGet st.labels p ≠ none ∧ st'.labels = st.labels) ∨
     (dictGet st.labels p = none ∧ st'.labels = (p, tr p) :: st.labels)) ∧
    st'.missedCommonAncestor =
      (st.missedCommonAncestor ||
        ((dictGet st.labels p).isNone && (!(anc rd sr p) && !(anc rd er p)))) := by
  unfold checkParentStep at h
  cases hg : dictGet st.labels p with
  | some lab =>
    rw [hg] at h
    obtain ⟨hl, hm⟩ := checkParentVerdict_ok _ _ _ _ h
    refine ⟨Or.inl ⟨by simp [hg], hl⟩, ?_⟩
    simp [hg, hm]
  | none =>
    rw [hg] at h
    obtain ⟨hl, hm⟩ := checkParentVerdict_ok _ _ _ _ h
    refine ⟨Or.inr ⟨rfl, hl⟩, ?_⟩
    rw [hm]
    simp only [hg, Option.isNone_none, Bool.true_and]
    cases hsr : anc rd sr p <;> cases her : anc rd er p <;>
      cases hmm : st.missedCommonAncestor <;> simp

theorem list_any_congr {α : Type} (f g : α → Bool) :
    ∀ l : List α, (∀ a ∈ l, f a = g a) → l.any f = l.any g
  | [], _ => rfl
  | a :: l, h => by
    rw [List.any_cons, List.any_cons, h a (List.mem_cons_self a l),
      list_any_congr f g l (fun b hb => h b (List.mem_cons_of_mem a hb))]

theorem checkParentsLoop_labels (rd sr er bg : String)
    (anc : String → String → String → Bool) (tr : String → String × String) :
    ∀ (ps : List String) (st st' : BlameSt),
      checkParentsLoop rd sr er bg anc tr st ps = .ok st' →
      (∀ k l, dictGet st.labels k = some l → dictGet st'.labels k = some l) ∧
      (∀ k l, dictGet st'.labels k = some l →
        dictGet st.labels k = some l ∨ (k ∈ ps ∧ dictGet st.labels k = none)) := by
  intro ps
  induction ps with
  | nil =>
    intro st st' h
    cases h
    exact ⟨fun k l hk => hk, fun k l hk => Or.inl hk⟩
  | cons p ps ih =>
    intro st st' h
    unfold checkParentsLoop at h
    cases hstep : checkParentStep rd sr er bg anc tr st p with
    | error e => rw [hstep] at h; cases h
    | ok st1 =>
      rw [hstep] at h
      obtain ⟨ih1, ih2⟩ := ih st1 st' h
      obtain ⟨hlab, _⟩ := checkParentStep_ok_spec rd sr er bg anc tr st p st1 hstep
      constructor
      · intro k l hk
        apply ih1
        rcases hlab with ⟨_, he⟩ | ⟨hnone, he⟩
        · rw [he]; exact hk
        · rw [he, dictGet_cons]
          have hpk : p ≠ k := by
            intro hpk
            rw [hpk] at hnone
            rw [hnone] at hk
            cases hk
          rw [if_neg hpk]; exact hk
      · intro k l hk
        rcases ih2 k l hk with hk1 | ⟨hmem, hnone1⟩
        · rcases hlab with ⟨_, he⟩ | ⟨hnone, he⟩
          · left; rw [he] at hk1; exact hk1
          · rw [he, dictGet_cons] at hk1
            by_cases hpk : p = k
            · right; subst hpk; exact ⟨List.mem_cons_self _ _, hnone⟩
            · left; rw [if_neg hpk] at hk1; exact hk1
        · right
          refine ⟨List.mem_cons_of_mem _ hmem, ?_⟩
          rcases hlab with ⟨_, he⟩ | ⟨hnone, he⟩
          · rw [he] at hnone1; exact hnone1
          · rw [he, dictGet_cons] at hnone1
            by_cases hpk : p = k
            · rw [if_pos hpk] at hnone1; cases hnone1
            · rw [if_neg hpk] at hnone1; exact hnone1

theorem checkParentsLoop_missed (rd sr er bg : String)
    (anc : String → String → String → Bool) (tr : String → String × String) :
    ∀ (ps : List String) (st st' : BlameSt), ps.Nodup →
      checkParentsLoop rd sr er bg anc tr st ps = .ok st' →
      st'.missedCommonAncestor =
        (st.missedCommonAncestor ||
          ps.any (fun p => (dictGet st.labels p).isNone &&
            (!(anc rd sr p) && !(anc rd er p)))) := by
  intro ps
  induction ps with
  | nil =>
    intro st st' _ h
    cases h
    simp
  | cons p ps ih =>
    intro st st' hnd h
    rw [List.nodup_cons] at hnd
    unfold checkParentsLoop at h
    cases hstep : checkParentStep rd sr er bg anc tr st p with
    | error e => rw [hstep] at h; cases h
    | ok st1 =>
      rw [hstep] at h
      obtain ⟨hlab, hmiss⟩ := checkParentStep_ok_spec rd sr er bg anc tr st p st1 hstep
      have hagree : ∀ q ∈ ps, dictGet st1.labels q = dictGet st.labels q := by
        intro q hq
        rcases hlab with ⟨_, he⟩ | ⟨_, he⟩
        · rw [he]
        · rw [he, dictGet_cons, if_neg]
          intro hpq
          exact hnd.1 (hpq ▸ hq)
      have hrec := ih st1 st' hnd.2 h
      rw [hrec, hmiss,
        list_any_congr _ _ ps (fun q hq => by rw [hagree q hq]),
        List.any_cons, Bool.or_assoc]

theorem checkParentsLoop_records (rd sr er bg : String)
    (anc : String → String → String → Bool) (tr : String → String × String) :
    ∀ (ps : List String) (st st' : BlameSt), ps.Nodup →
      checkParentsLoop rd sr er bg anc tr st ps = .ok st' →
      ∀ p ∈ ps, dictGet st.labels p = none → dictGet st'.labels p = some (tr p) := by
  intro ps
  induction ps with
  | nil =>
    intro st st' _ _ p hp
    cases hp
  | cons p0 ps ih =>
    intro st st' hnd h p hp hnone
    rw [List.nodup_cons] at hnd
    unfold checkParentsLoop at h
    cases hstep : checkParentStep rd sr er bg anc tr st p0 with
    | error e => rw [hstep] at h; cases h
    | ok st1 =>
      rw [hstep] at h
      obtain ⟨hlab, _⟩ := checkParentStep_ok_spec rd sr er bg anc tr st p0 st1 hstep
      rcases List.mem_cons.mp hp with rfl | hp'
      · rcases hlab with ⟨hsome, _⟩ | ⟨_, he⟩
        · exact absurd hnone hsome
        · have h1 : dictGet st1.labels p = some (tr p) := by
            rw [he, dictGet_cons, if_pos rfl]
          exact (checkParentsLoop_labels rd sr er bg anc tr ps st1 st' h).1 p (tr p) h1
      · have hpk : p0 ≠ p := fun hpq => hnd.1 (hpq ▸ hp')
        have h1 : dictGet st1.labels p = none := by
          rcases hlab with ⟨_, he⟩ | ⟨_, he⟩
          · rw [he]; exact hnone
          · rw [he, dictGet_cons, if_neg hpk]; exact hnone
        exact ih st1 st' hnd.2 h p hp' h1

theorem blameFinish_ok (rd : String) (fca : String → String → String → String)
    (tr : String → String × String) (parents : List String) (st : BlameSt)
    (res : BlameResult) (h : blameFinish rd fca tr parents st = .ok res) :
    res.labels = st.labels ∧ res.bisectLied = st.bisectLied ∧
    res.missedCommonAncestor = st.missedCommonAncestor := by
  unfold blameFinish at h
  split_ifs at h
  · cases hg0 : parents.get? 0 with
    | none =>
      rw [hg0] at h
      cases hg1 : parents.get? 1 with
      | none => rw [hg1] at h; cases h
      | some p1 => rw [hg1] at h; cases h
    | some p0 =>
      rw [hg0] at h
      cases hg1 : parents.get? 1 with
      | none => rw [hg1] at h; cases h
      | some p1 =>
        rw [hg1] at h
        cases h
        exact ⟨rfl, rfl, rfl⟩
  · cases h; exact ⟨rfl, rfl, rfl⟩
  · cases h; exact ⟨rfl, rfl, rfl⟩

theorem checkParentStep_labeled (rd sr er bg : String)
    (anc : String → String → String → Bool) (tr : String → String × String)
    (st : BlameSt) (p : String) (v r : String)
    (hg : dictGet st.labels p = some (v, r))
    (hv : v = "good" ∨ v = "bad" ∨ v = "skip")
    (hbg : bg = "good" ∨ bg = "bad") :
    checkParentStep rd sr er bg anc tr st p =
      .ok ⟨st.labels, st.bisectLied || (v == bg), st.missedCommonAncestor⟩ := by
  unfold checkParentStep checkParentVerdict
  rw [hg]
  dsimp only
  rcases hbg with hbg | hbg <;> rcases hv with hv | hv | hv <;> subst hbg <;> subst hv <;> simp

theorem checkParentsLoop_all_labeled (rd sr er bg : String)
    (anc : String → String → String → Bool) (tr : String → String × String)
    (hbg : bg = "good" ∨ bg = "bad") :
    ∀ (ps : List String) (st : BlameSt),
      (∀ p ∈ ps, ∃ v r, dictGet st.labels p = some (v, r) ∧
        (v = "good" ∨ v = "bad" ∨ v = "skip")) →
      checkParentsLoop rd sr er bg anc tr st ps =
        .ok ⟨st.labels,
             st.bisectLied || ps.any (fun p =>
               match dictGet st.labels p with
               | some lab => lab.1 == bg
               | none => false),
             st.missedCommonAncestor⟩ := by
  intro ps
  induction ps with
  | nil =>
    intro st _
    simp [checkParentsLoop]
  | cons p ps ih =>
    intro st hall
    obtain ⟨v, r, hg, hv⟩ := hall p (List.mem_cons_self p ps)
    unfold checkParentsLoop
    rw [checkParentStep_labeled rd sr er bg anc tr st p v r hg hv hbg]
    dsimp only
    rw [ih ⟨st.labels, st.bisectLied || (v == bg), st.missedCommonAncestor⟩
      (fun q hq => hall q (List.mem_cons_of_mem p hq))]
    rw [List.any_cons, hg]
    dsimp only
    rw [Bool.or_assoc]

/-- C6: when the blamed revision has more than one parent and every parent
already carries a recorded good/bad/skip verdict, `checkBlameParents`
returns normally and (a) the contradicted flag `bisectLied` is set exactly
when some parent's verdict equals the blamed revision's verdict, (b) a
`skip` parent sets neither flag and does not abort the check
(`missedCommonAncestor` stays false and the run is `.ok`), and (c) when no
parent contradicts, the reported outcome is that the regression was
introduced by the merge itself. -/
theorem checkBlameParents_flags_and_outcome
    (repoDir blamedRev blamedGoodOrBad startRepo endRepo hgParentOutput : String)
    (labels : List (String × (String × String)))
    (testRev : String → String × String)
    (isAncestor : String → String → String → Bool)
    (findCommonAncestor : String → String → String → String)
    (hbg : blamedGoodOrBad = "good" ∨ blamedGoodOrBad = "bad")
    (hlen : ¬ ((pySplit hgParentOutput ',').dropLast).length = 1)
    (hall : ∀ p ∈ (pySplit hgParentOutput ',').dropLast,
      ∃ v r, dictGet labels p = some (v, r) ∧ (v = "good" ∨ v = "bad" ∨ v = "skip")) :
    checkBlameParents repoDir blamedRev blamedGoodOrBad labels testRev startRepo endRepo
        hgParentOutput isAncestor findCommonAncestor =
      .ok ⟨labels,
           ((pySplit hgParentOutput ',').dropLast).any (fun p =>
             match dictGet labels p with
             | some lab => lab.1 == blamedGoodOrBad
             | none => false),
           false,
           if ((pySplit hgParentOutput ',').dropLast).any (fun p =>
               match dictGet labels p with
               | some lab => lab.1 == blamedGoodOrBad
               | none => false) then
             .liedEndpointMislabeled
           else .mergeIntroduced⟩ := by
  unfold checkBlameParents
  rw [if_neg hlen]
  rw [checkParentsLoop_all_labeled repoDir startRepo endRepo blamedGoodOrBad isAncestor
    testRev hbg ((pySplit hgParentOutput ',').dropLast) ⟨labels, false, false⟩ hall]
  dsimp only
  unfold blameFinish
  dsimp only
  rw [Bool.false_or]
  cases hany : ((pySplit hgParentOutput ',').dropLast).any (fun p =>
      match dictGet labels p with
      | some lab => lab.1 == blamedGoodOrBad
      | none => false) with
  | false => simp
  | true => simp

/-- Concrete label history with only the second parent tested. -/
def blameDemoLabels1 : List (String × (String × String)) :=
  [("p2", ("good", "already labeled"))]

/-- Concrete label history with both parents tested. -/
def blameDemoLabels2 : List (String × (String × String)) :=
  [("p1", ("bad", "crashed")), ("p2", ("good", "ran fine"))]

/-- Concrete oracle used in the blame-verifier witnesses. -/
def blameDemoTestRev (r : String) : String × String :=
  ("good", "tested now")

/-- Concrete ancestry relation (`blameDemoAnc rd a b` = `a` is an ancestor
of `b`): the only ancestry edge is `p1` being an ancestor of `s`. -/
def blameDemoAnc (rd a b : String) : Bool :=
  a == "p1" && b == "s"

/-- Concrete common-ancestor oracle used in the blame-verifier witnesses. -/
def blameDemoFca (rd a b : String) : String :=
  "ca"

/-- Witness for C6 at a concrete merge: blamed verdict `bad`, parents
`p1` (labeled `bad`, contradicting) and `p2` (labeled `good`): the run
returns normally with `bisectLied` set and `missedCommonAncestor` clear. -/
theorem checkBlameParents_flags_and_outcome_witness :
    checkBlameParents "repo" "m" "bad" blameDemoLabels2 blameDemoTestRev "s" "e" "p1,p2,"
        blameDemoAnc blameDemoFca =
      .ok ⟨blameDemoLabels2, true, false, .liedEndpointMislabeled⟩ :=
  checkBlameParents_flags_and_outcome "repo" "m" "bad" "s" "e" "p1,p2,"
    blameDemoLabels2 blameDemoTestRev blameDemoAnc blameDemoFca
    (Or.inr rfl) (by decide)
    (by
      intro p hp
      have hps : (pySplit "p1,p2," ',').dropLast = ["p1", "p2"] := rfl
      rw [hps] at hp
      rcases List.mem_cons.mp hp with rfl | hp2
      · exact ⟨"bad", "crashed", rfl, Or.inr (Or.inl rfl)⟩
      · rcases List.mem_cons.mp hp2 with rfl | hp3
        · exact ⟨"good", "ran fine", rfl, Or.inl rfl⟩
        · cases hp3)

/-- C7: `checkBlameParents` never overwrites an existing entry of the
labels mapping — every revision that already had a label before the call
keeps that exact label in the result — and the only entries it adds are for
parents of the blamed revision that had no label before the call (in
particular, the common ancestor it tests in the contradicted case is only
tested, never recorded). -/
theorem checkBlameParents_labels_monotone
    (repoDir blamedRev blamedGoodOrBad startRepo endRepo hgParentOutput : String)
    (labels : List (String × (String × String)))
    (testRev : String → String × String)
    (isAncestor : String → String → String → Bool)
    (findCommonAncestor : String → String → String → String)
    (res : BlameResult)
    (hok : checkBlameParents repoDir blamedRev blamedGoodOrBad labels testRev startRepo endRepo
        hgParentOutput isAncestor findCommonAncestor = .ok res) :
    (∀ k l, dictGet labels k = some l → dictGet res.labels k = some l) ∧
    (∀ k l, dictGet res.labels k = some l →
      dictGet labels k = some l ∨
        (dictGet labels k = none ∧ k ∈ (pySplit hgParentOutput ',').dropLast)) := by
  unfold checkBlameParents at hok
  by_cases h1 : ((pySplit hgParentOutput ',').dropLast).length = 1
  · rw [if_pos h1] at hok
    cases hok
    exact ⟨fun k l hk => hk, fun k l hk => Or.inl hk⟩
  · rw [if_neg h1] at hok
    cases hloop : checkParentsLoop repoDir startRepo endRepo blamedGoodOrBad isAncestor testRev
        ⟨labels, false, false⟩ ((pySplit hgParentOutput ',').dropLast) with
    | error e => rw [hloop] at hok; cases hok
    | ok st =>
      rw [hloop] at hok
      dsimp only at hok
      obtain ⟨hres, _, _⟩ := blameFinish_ok repoDir findCommonAncestor testRev _ st res hok
      obtain ⟨hfwd, hbwd⟩ := checkParentsLoop_labels repoDir startRepo endRepo blamedGoodOrBad
        isAncestor testRev _ _ _ hloop
      rw [hres]
      exact ⟨hfwd, fun k l hk => (hbwd k l hk).imp id (fun h2 => ⟨h2.2, h2.1⟩)⟩

/-- Witness for C7 at a concrete merge with an untested parent `p1`: the
preexisting label of `p2` survives unchanged, and the entry the call added
for `p1` is accounted for as a previously-untested parent. -/
theorem checkBlameParents_labels_monotone_witness :
    dictGet (BlameResult.labels ⟨("p1", ("good", "tested now")) :: blameDemoLabels1,
        false, true, .mergeIntroduced⟩) "p2" = some ("good", "already labeled") ∧
    (dictGet blameDemoLabels1 "p1" = some ("good", "tested now") ∨
      (dictGet blameDemoLabels1 "p1" = none ∧ "p1" ∈ (pySplit "p1,p2," ',').dropLast)) :=
  ⟨(checkBlameParents_labels_monotone "repo" "m" "bad" "s" "e" "p1,p2," blameDemoLabels1
      blameDemoTestRev blameDemoAnc blameDemoFca
      ⟨("p1", ("good", "tested now")) :: blameDemoLabels1, false, true, .mergeIntroduced⟩
      rfl).1 "p2" ("good", "already labeled") rfl,
   (checkBlameParents_labels_monotone "repo" "m" "bad" "s" "e" "p1,p2," blameDemoLabels1
      blameDemoTestRev blameDemoAnc blameDemoFca
      ⟨("p1", ("good", "tested now")) :: blameDemoLabels1, false, true, .mergeIntroduced⟩
      rfl).2 "p1" ("good", "tested now") rfl⟩

/-- C8 counterexample: the claim reads the flag condition as "the parent is
not an ancestor of either endpoint", but the source tests the opposite
direction, `isAncestor(repo_dir, startRepo, p)` — whether the parent is a
DESCENDANT of the endpoint (its own log message says "it is not a
descendant of either ... or ...").  Here the untested parent `p1` IS an
ancestor of the start endpoint `s` (`blameDemoAnc "repo" "p1" "s" = true`),
so under the claim's reading the flag must stay clear; yet the run sets
`missedCommonAncestor` because neither endpoint is an ancestor of `p1`. -/
theorem checkBlameParents_missed_flag_counterexample :
    checkBlameParents "repo" "m" "bad" blameDemoLabels1 blameDemoTestRev "s" "e" "p1,p2,"
        blameDemoAnc blameDemoFca =
      .ok ⟨[("p1", ("good", "tested now")), ("p2", ("good", "already labeled"))],
           false, true, .mergeIntroduced⟩ ∧
    blameDemoAnc "repo" "p1" "s" = true :=
  ⟨rfl, rfl⟩

/-- C8 amended: for a blamed revision with more than one (pairwise
distinct) parent, `missedCommonAncestor` is set exactly when some
previously-unlabeled parent is a descendant of neither original endpoint
(neither `startRepo` nor `endRepo` is an ancestor of it, i.e.
`isAncestor repoDir startRepo p` and `isAncestor repoDir endRepo p` are both
false) — not, as the claim words it, when the parent is not an ancestor of
the endpoints — and every previously-unlabeled parent is then tested and its
label recorded. -/
theorem checkBlameParents_missed_iff_not_descendant
    (repoDir blamedRev blamedGoodOrBad startRepo endRepo hgParentOutput : String)
    (labels : List (String × (String × String)))
    (testRev : String → String × String)
    (isAncestor : String → String → String → Bool)
    (findCommonAncestor : String → String → String → String)
    (res : BlameResult)
    (hnd : ((pySplit hgParentOutput ',').dropLast).Nodup)
    (hlen : ¬ ((pySplit hgParentOutput ',').dropLast).length = 1)
    (hok : checkBlameParents repoDir blamedRev blamedGoodOrBad labels testRev startRepo endRepo
        hgParentOutput isAncestor findCommonAncestor = .ok res) :
    res.missedCommonAncestor =
      ((pySplit hgParentOutput ',').dropLast).any (fun p =>
        (dictGet labels p).isNone &&
        (!(isAncestor repoDir startRepo p) && !(isAncestor repoDir endRepo p))) ∧
    ∀ p ∈ (pySplit hgParentOutput ',').dropLast,
      dictGet labels p = none → dictGet res.labels p = some (testRev p) := by
  unfold checkBlameParents at hok
  rw [if_neg hlen] at hok
  cases hloop : checkParentsLoop repoDir startRepo endRepo blamedGoodOrBad isAncestor testRev
      ⟨labels, false, false⟩ ((pySplit hgParentOutput ',').dropLast) with
  | error e => rw [hloop] at hok; cases hok
  | ok st =>
    rw [hloop] at hok
    dsimp only at hok
    obtain ⟨hres, _, hmres⟩ := blameFinish_ok repoDir findCommonAncestor testRev _ st res hok
    constructor
    · rw [hmres]
      have hm := checkParentsLoop_missed repoDir startRepo endRepo blamedGoodOrBad isAncestor
        testRev ((pySplit hgParentOutput ',').dropLast) ⟨labels, false, false⟩ st hnd hloop
      rw [hm]
      exact Bool.false_or _
    · intro p hp hnone
      rw [hres]
      exact checkParentsLoop_records repoDir startRepo endRepo blamedGoodOrBad isAncestor
        testRev ((pySplit hgParentOutput ',').dropLast) ⟨labels, false, false⟩ st hnd hloop
        p hp hnone

/-- Witness for the amended C8 at the concrete merge of the counterexample:
the flag equals the descendant-of-neither-endpoint disjunction over the
untested parents, and the untested parent `p1` got its oracle label
recorded. -/
theorem checkBlameParents_missed_iff_not_descendant_witness :
    BlameResult.missedCommonAncestor
        ⟨[("p1", ("good", "tested now")), ("p2", ("good", "already labeled"))],
         false, true, .mergeIntroduced⟩ =
      ((pySplit "p1,p2," ',').dropLast).any (fun p =>
        (dictGet blameDemoLabels1 p).isNone &&
        (!(blameDemoAnc "repo" "s" p) && !(blameDemoAnc "repo" "e" p))) ∧
    dictGet (BlameResult.labels
        ⟨[("p1", ("good", "tested now")), ("p2", ("good", "already labeled"))],
         false, true, .mergeIntroduced⟩) "p1" = some (blameDemoTestRev "p1") :=
  ⟨(checkBlameParents_missed_iff_not_descendant "repo" "m" "bad" "s" "e" "p1,p2,"
      blameDemoLabels1 blameDemoTestRev blameDemoAnc blameDemoFca
      ⟨[("p1", ("good", "tested now")), ("p2", ("good", "already labeled"))],
       false, true, .mergeIntroduced⟩ (by decide) (by decide) rfl).1,
   (checkBlameParents_missed_iff_not_descendant "repo" "m" "bad" "s" "e" "p1,p2,"
      blameDemoLabels1 blameDemoTestRev blameDemoAnc blameDemoFca
      ⟨[("p1", ("good", "tested now")), ("p2", ("good", "already labeled"))],
       false, true, .mergeIntroduced⟩ (by decide) (by decide) rfl).2
      "p1" (by decide) rfl⟩

/-- The state of `findBlamedCset`'s bisection loop (source lines 217-271):
the current candidate (None terminates the loop), the skip counter, the
label history, the initial-endpoints mode flag, the current range endpoints
and the blamed-revision outputs of the last mark. -/
structure LoopSt where
  currRev : Option String
  skipCount : Nat
  labels : List (String × (String × String))
  testInitialRevs : Bool
  sRepo : String
  eRepo : String
  blamedGoodOrBad : Option String
  blamedRev : Option String

/-- Observable events of one loop iteration: an oracle call (`test`) and a
delegate mark (`mark`, the `bisectLabel` call). -/
inductive LoopEvent
  | test (rev : String) (label : String × String)
  | mark (rev : String) (verdict : String)
deriving DecidableEq

/-- Count of oracle calls in an event trace. -/
def countTests (evs : List LoopEvent) : Nat :=
  evs.countP fun e => match e with | .test _ _ => true | .mark _ _ => false

/-- Count of delegate marks in an event trace. -/
def countMarks (evs : List LoopEvent) : Nat :=
  evs.countP fun e => match e with | .test _ _ => false | .mark _ _ => true

/-- Result of one loop iteration: exit the loop (`halt`: guard false or the
skip-overflow break), keep looping (`cont`), or propagate an exception
(`fail`, e.g. the `assert currRev is None`). -/
inductive StepRes
  | halt (s : LoopSt) (evs : List LoopEvent)
  | cont (s : LoopSt) (evs : List LoopEvent)
  | fail (msg : String) (evs : List LoopEvent)

/-- The tail of a loop iteration from the `bisectLabel` call on (source
lines 260-266): mark the delegate (`mark verdict rev sRepo eRepo` abstracts
`bisectLabel`'s observable result: the 5-tuple, or a raised exception),
rebind the five state components, and in initial-endpoints mode clear the
flag, assert that no candidate was suggested, and make the start endpoint
the next candidate. -/
def loopMark
    (mark : String → String → String → String →
      Except String (Option String × Option String × Option String × String × String))
    (s : LoopSt) (rev : String) (label : String × String) : StepRes :=
  match mark label.1 rev s.sRepo s.eRepo with
  | .error e => .fail e [.test rev label, .mark rev label.1]
  | .ok (bgb, brev, curr, ns, ne) =>
    let s1 : LoopSt :=
      { s with blamedGoodOrBad := bgb, blamedRev := brev, currRev := curr,
               sRepo := ns, eRepo := ne }
    if s1.testInitialRevs then
      match s1.currRev with
      | some _ => .fail "AssertionError: currRev is not None"
          [.test rev label, .mark rev label.1]
      | none => .cont { s1 with testInitialRevs := false, currRev := some s1.sRepo }
          [.test rev label, .mark rev label.1]
    else .cont s1 [.test rev label, .mark rev label.1]

/-- One iteration of the bisection loop (source lines 241-271): test the
guard, invoke the oracle, record the label, count a skip and break past 20
total skips without marking the delegate, otherwise mark the delegate. -/
def loopStep (testRev : String → String × String)
    (mark : String → String → String → String →
      Except String (Option String × Option String × Option String × String × String))
    (s : LoopSt) : StepRes :=
  match s.currRev with
  | none => .halt s []
  | some rev =>
    let label := testRev rev
    let s1 : LoopSt := { s with labels := (rev, label) :: s.labels }
    if label.1 = "skip" then
      let s2 : LoopSt := { s1 with skipCount := s1.skipCount + 1 }
      if s2.skipCount > 20 then .halt s2 [.test rev label]
      else loopMark mark s2 rev label
    else loopMark mark s1 rev label

/-- Outcome of running the loop with fuel: finished (loop exited), out of
fuel, or an exception. -/
inductive RunRes
  | finished (s : LoopSt) (evs : List LoopEvent)
  | fuelOut (s : LoopSt) (evs : List LoopEvent)
  | failed (msg : String) (evs : List LoopEvent)

/-- The event trace of a run. -/
def RunRes.events : RunRes → List LoopEvent
  | .finished _ evs => evs
  | .fuelOut _ evs => evs
  | .failed _ evs => evs

/-- Whether the run exited the loop (rather than running out of fuel or
raising). -/
def RunRes.isFinished : RunRes → Bool
  | .finished _ _ => true
  | .fuelOut _ _ => false
  | .failed _ _ => false

/-- The bisection loop of `findBlamedCset`, iterated with explicit fuel and
collecting the event trace. -/
def loopRun (testRev : String → String × String)
    (mark : String → String → String → String →
      Except String (Option String × Option String × Option String × String × String)) :
    Nat → LoopSt → RunRes
  | 0, s => .fuelOut s []
  | fuel + 1, s =>
    match loopStep testRev mark s with
    | .halt s1 evs => .finished s1 evs
    | .fail msg evs => .failed msg evs
    | .cont s1 evs =>
      match loopRun testRev mark fuel s1 with
      | .finished s2 evs2 => .finished s2 (evs ++ evs2)
      | .fuelOut s2 evs2 => .fuelOut s2 (evs ++ evs2)
      | .failed msg evs2 => .failed msg (evs ++ evs2)


theorem loopStep_skip_halt (testRev : String → String × String)
    (mark : String → String → String → String →
      Except String (Option String × Option String × Option String × String × String))
    (s : LoopSt) (r : String)
    (hcur : s.currRev = some r) (hskip : (testRev r).1 = "skip")
    (hsc : s.skipCount + 1 > 20) :
    loopStep testRev mark s =
      .halt ⟨some r, s.skipCount + 1, (r, testRev r) :: s.labels, s.testInitialRevs,
             s.sRepo, s.eRepo, s.blamedGoodOrBad, s.blamedRev⟩
        [.test r (testRev r)] := by
  unfold loopStep
  rw [hcur]
  dsimp only
  rw [if_pos hskip, if_pos (by (try dsimp only); omega)]

theorem loopStep_skip_cont (testRev : String → String × String)
    (mark : String → String → String → String →
      Except String (Option String × Option String × Option String × String × String))
    (nextRev : String → String) (s : LoopSt) (r : String)
    (hcur : s.currRev = some r) (hskip : (testRev r).1 = "skip")
    (htir : s.testInitialRevs = false) (hsc : s.skipCount + 1 ≤ 20)
    (hMark : mark (testRev r).1 r s.sRepo s.eRepo =
      .ok (none, none, some (nextRev r), s.sRepo, s.eRepo)) :
    loopStep testRev mark s =
      .cont ⟨some (nextRev r), s.skipCount + 1, (r, testRev r) :: s.labels, false,
             s.sRepo, s.eRepo, none, none⟩
        [.test r (testRev r), .mark r (testRev r).1] := by
  unfold loopStep loopMark
  rw [hcur]
  dsimp only
  rw [if_pos hskip, if_neg (by (try dsimp only); omega), hMark]
  dsimp only
  rw [if_neg (by (try dsimp only); rw [htir]; exact Bool.false_ne_true)]
  (try dsimp only)
  rw [htir]

theorem loopRun_skip_aux (testRev : String → String × String)
    (mark : String → String → String → String →
      Except String (Option String × Option String × Option String × String × String))
    (nextRev : String → String)
    (hOracle : ∀ r, (testRev r).1 = "skip")
    (hMark : ∀ l r a b, mark l r a b = .ok (none, none, some (nextRev r), a, b)) :
    ∀ k : Nat, 1 ≤ k → ∀ (fuel : Nat) (s : LoopSt) (r : String),
      s.skipCount + k = 21 → s.currRev = some r → s.testInitialRevs = false →
      k ≤ fuel →
      (loopRun testRev mark fuel s).isFinished = true ∧
      countTests (loopRun testRev mark fuel s).events = k ∧
      countMarks (loopRun testRev mark fuel s).events = k - 1 := by
  intro k
  induction k with
  | zero => intro h1; omega
  | succ k ih =>
    intro _ fuel s r hsc hcur htir hfuel
    obtain ⟨f, rfl⟩ : ∃ f, fuel = f + 1 := ⟨fuel - 1, by omega⟩
    by_cases hk : k = 0
    · subst hk
      unfold loopRun
      rw [loopStep_skip_halt testRev mark s r hcur (hOracle r) (by omega)]
      dsimp only
      exact ⟨rfl, by simp [countTests, RunRes.events, List.countP_cons],
        by simp [countMarks, RunRes.events, List.countP_cons]⟩
    · have hstep := loopStep_skip_cont testRev mark nextRev s r hcur (hOracle r) htir
        (by omega) (hMark (testRev r).1 r s.sRepo s.eRepo)
      unfold loopRun
      rw [hstep]
      dsimp only
      have hrec := ih (by omega) f
        ⟨some (nextRev r), s.skipCount + 1, (r, testRev r) :: s.labels, false,
         s.sRepo, s.eRepo, none, none⟩
        (nextRev r) (by show s.skipCount + 1 + k = 21; omega) rfl rfl (by omega)
      cases hrun : loopRun testRev mark f
          ⟨some (nextRev r), s.skipCount + 1, (r, testRev r) :: s.labels, false,
           s.sRepo, s.eRepo, none, none⟩ with
      | finished s2 evs2 =>
        rw [hrun] at hrec
        dsimp only
        obtain ⟨_, h2, h3⟩ := hrec
        refine ⟨rfl, ?_, ?_⟩ <;>
          simp only [RunRes.events, countTests, countMarks, List.countP_append,
            List.countP_cons, List.countP_nil] at h2 h3 ⊢ <;>
          simp <;> omega
      | fuelOut s2 evs2 =>
        rw [hrun] at hrec
        simp [RunRes.isFinished] at hrec
      | failed msg evs2 =>
        rw [hrun] at hrec
        simp [RunRes.isFinished] at hrec

/-- C1: if the oracle returns a `skip` label on every candidate and the
delegate keeps suggesting next candidates, the bisection loop of
`findBlamedCset` exits after exactly 21 skip verdicts: the first 20 skips
are each followed by a delegate mark, and the 21st pushes the counter past
the threshold of 20 and breaks out before marking the delegate for that
candidate — 21 oracle calls, 20 marks, and guaranteed termination within 21
iterations of fuel. -/
theorem findBlamedCset_skip_overflow (testRev : String → String × String)
    (mark : String → String → String → String →
      Except String (Option String × Option String × Option String × String × String))
    (nextRev : String → String)
    (hOracle : ∀ r, (testRev r).1 = "skip")
    (hMark : ∀ l r a b, mark l r a b = .ok (none, none, some (nextRev r), a, b))
    (s0 : LoopSt) (r0 : String)
    (h0 : s0.skipCount = 0) (hc : s0.currRev = some r0) (ht : s0.testInitialRevs = false)
    (fuel : Nat) (hf : 21 ≤ fuel) :
    (loopRun testRev mark fuel s0).isFinished = true ∧
    countTests (loopRun testRev mark fuel s0).events = 21 ∧
    countMarks (loopRun testRev mark fuel s0).events = 20 :=
  loopRun_skip_aux testRev mark nextRev hOracle hMark 21 (by omega) fuel s0 r0
    (by omega) hc ht (by omega)

/-- An oracle that forces a `skip` verdict on every candidate. -/
def skipDemoOracle (r : String) : String × String :=
  ("skip", "compilation failed")

/-- A synthetic delegate that always suggests a fresh next candidate and
never narrows to a blamed revision. -/
def skipDemoMark (l r a b : String) :
    Except String (Option String × Option String × Option String × String × String) :=
  .ok (none, none, some (r ++ "+"), a, b)

/-- The candidate successor used by `skipDemoMark`. -/
def skipDemoNext (r : String) : String :=
  r ++ "+"

/-- A concrete loop start state: candidate `e0`, no skips yet, endpoint
mode off. -/
def skipDemoInit : LoopSt :=
  ⟨some "e0", 0, [], false, "s0", "e0", none, none⟩

/-- Witness for C1: with the always-skip oracle and the always-next
delegate, fuel 21 already finishes the loop with 21 oracle calls and 20
marks. -/
theorem findBlamedCset_skip_overflow_witness :
    (loopRun skipDemoOracle skipDemoMark 21 skipDemoInit).isFinished = true ∧
    countTests (loopRun skipDemoOracle skipDemoMark 21 skipDemoInit).events = 21 ∧
    countMarks (loopRun skipDemoOracle skipDemoMark 21 skipDemoInit).events = 20 :=
  findBlamedCset_skip_overflow skipDemoOracle skipDemoMark skipDemoNext
    (fun _ => rfl) (fun _ _ _ _ => rfl) skipDemoInit "e0" rfl rfl rfl 21 (by omega)

/-- C10: the verdict of a label produced by the internal oracle is always
`good` or `bad`, never `skip`; and the function returned by
`externalTestAndLabel`, whenever it returns normally, returns exactly
`("bad", "interesting")` or `("good", "not interesting")`.  A `skip` label
can therefore only originate outside these two oracles. -/
theorem oracles_never_skip :
    (∀ (opts : InternalOptions) (s : String) (e : Int),
      (internalTestAndLabel opts s e).1 = "good" ∨ (internalTestAndLabel opts s e).1 = "bad") ∧
    (∀ (t : String) (h : Bool) (i : Except String Unit) (r : Except String Bool)
        (fs : FS) (res : String × String),
      (externalInner t h i r fs).1 = .ok res →
      res = ("bad", "interesting") ∨ res = ("good", "not interesting")) := by
  constructor
  · intro opts s e
    unfold internalTestAndLabel
    split_ifs <;> simp
  · intro t h i r fs res hok
    unfold externalInner externalAfterInit at hok
    cases h with
    | false =>
      cases r with
      | error e2 => simp at hok
      | ok b =>
        dsimp only at hok
        cases b with
        | false => right; cases hok; rfl
        | true => left; cases hok; rfl
    | true =>
      cases i with
      | error e1 => simp at hok
      | ok u =>
        cases r with
        | error e2 => simp at hok
        | ok b =>
          dsimp only at hok
          cases b with
          | false => right; cases hok; rfl
          | true => left; cases hok; rfl

/-- Witness for C10 at concrete inputs: the internal oracle on exit code 0,
and the external oracle on a predicate that returns true. -/
theorem oracles_never_skip_witness :
    ((internalTestAndLabel ⟨"", none⟩ "" 0).1 = "good" ∨
     (internalTestAndLabel ⟨"", none⟩ "" 0).1 = "bad") ∧
    (("bad", "interesting") = ("bad", "interesting") ∨
     ("bad", "interesting") = ("good", "not interesting")) :=
  ⟨oracles_never_skip.1 ⟨"", none⟩ "" 0,
   oracles_never_skip.2 "t" false (.ok ()) (.ok true) ⟨[]⟩ ("bad", "interesting") rfl⟩
